import Mathlib

/-!
Verification development for the k8s-connection-monitor repository.

The Go sources are shallowly embedded below:
* `decodeAddress`, `reverse` — pkg/connection/connection_linux.go (AddressCodec)
* `processINET`, `_TCPStatuses`, `connectionKindTypes`, `GetConnections` —
  pkg/connection/connection_linux.go (SocketTableParser and per-pid fan-out)
* `collectConnections` — the connection-deduplication loop of `Monitor.Collect`
* `GetPids` — pkg/moby/moby.go

File I/O is modelled by an explicit map from path to optional contents
(`none` = the read fails); the moby container-inspect call is a parameter.
Go strings are Lean `String`s, with the Go standard-library operations the
code uses (`strings.Split`, `strings.Fields`, `strconv.ParseInt`,
`hex.DecodeString`, `net.IP.String`) re-implemented over `List Char`.
-/

deriving instance DecidableEq for Except

namespace ConnMonitor

/-- Splits a character list at every element satisfying `p`, dropping the
separators and keeping empty chunks.  With `p := (· == sep)` this is Go's
`strings.Split`/`bytes.Split` for a one-byte separator. -/
def splitOnP (p : Char → Bool) : List Char → List (List Char)
  | [] => [[]]
  | c :: rest =>
    if p c then [] :: splitOnP p rest
    else
      match splitOnP p rest with
      | [] => [[c]]
      | h :: t => (c :: h) :: t

/-- Go `strings.Split s (String.singleton sep)` (single-character separator). -/
def goSplit (sep : Char) (s : String) : List String :=
  (splitOnP (fun c => c == sep) s.toList).map (fun l => String.mk l)

/-- Go `unicode.IsSpace` restricted to the Latin-1 range; the kernel socket
tables the parser reads are ASCII, so the higher Unicode space classes are
not modelled. -/
def goIsSpace (c : Char) : Bool :=
  c == ' ' || c == '\t' || c == '\n' || c == '\x0b' || c == '\x0c' ||
    c == '\r' || c == '\x85' || c == '\xa0'

/-- Go `strings.Fields`: split around runs of whitespace, no empty fields. -/
def goFields (s : String) : List String :=
  ((splitOnP goIsSpace s.toList).filter (fun l => !l.isEmpty)).map
    (fun l => String.mk l)

/-- The value of a hexadecimal digit character, upper or lower case. -/
def hexDigitVal (c : Char) : Option Nat :=
  if '0' ≤ c ∧ c ≤ '9' then some (c.toNat - '0'.toNat)
  else if 'a' ≤ c ∧ c ≤ 'f' then some (c.toNat - 'a'.toNat + 10)
  else if 'A' ≤ c ∧ c ≤ 'F' then some (c.toNat - 'A'.toNat + 10)
  else none

/-- Digit/underscore shape accepted by Go `strconv.ParseInt` after a `0x`
base prefix: every character is a hex digit or an underscore, an underscore
must follow a digit (or the prefix itself) and be followed by a digit.  The
boolean argument records whether the previous character was a digit (the
base prefix counts as one). -/
def validHexUnd : Bool → List Char → Bool
  | prev, [] => prev
  | prev, c :: rest =>
    if (hexDigitVal c).isSome then validHexUnd true rest
    else if c == '_' then prev && validHexUnd false rest
    else false

/-- Numeric value of a list of hex digit characters, most significant first. -/
def hexValue (l : List Char) : Nat :=
  l.foldl (fun acc c => acc * 16 + (hexDigitVal c).getD 0) 0

/-- Go `strconv.ParseInt ("0x" ++ s) 0 64`, collapsing every error to `none`.
With the `0x` prefix prepended no sign is possible, so the result is a `Nat`;
values of `2 ^ 63` or more are out of `int64` range and fail. -/
def parseInt0x (s : String) : Option Nat :=
  let cs := s.toList
  if cs.isEmpty then none
  else if validHexUnd true cs then
    let v := hexValue (cs.filter (fun c => !(c == '_')))
    if v < 2 ^ 63 then some v else none
  else none

/-- Bytes of a list of hex digit characters taken in pairs (used only under
the `hexDecodeString` guard, where every character is a valid digit). -/
def hexPairs : List Char → List Nat
  | hi :: lo :: rest => (((hexDigitVal hi).getD 0) * 16 + (hexDigitVal lo).getD 0) :: hexPairs rest
  | _ => []

/-- Go `hex.DecodeString`: succeeds exactly when the string has even length
and every character is a hex digit (Go reports the first odd-length or
invalid-byte error; both collapse to `none` here). -/
def hexDecodeString (s : String) : Option (List Nat) :=
  let cs := s.toList
  if cs.length % 2 = 0 ∧ cs.all (fun c => (hexDigitVal c).isSome) = true then
    some (hexPairs cs)
  else none

/-- `net.IP.To4`: a 4-byte address, or the low 4 bytes of a 16-byte
IPv4-in-IPv6 address. -/
def ipTo4 (ip : List Nat) : Option (Nat × Nat × Nat × Nat) :=
  match ip with
  | [a, b, c, d] => some (a, b, c, d)
  | [z0, z1, z2, z3, z4, z5, z6, z7, z8, z9, m0, m1, a, b, c, d] =>
    if [z0, z1, z2, z3, z4, z5, z6, z7, z8, z9].all (fun z => z == 0) &&
        m0 == 0xff && m1 == 0xff then
      some (a, b, c, d)
    else none
  | _ => none

/-- Two lowercase hex digits per byte, as Go's `net.hexString`. -/
def hexString (bs : List Nat) : String :=
  String.mk (bs.foldr (fun b acc => Nat.digitChar (b / 16 % 16) :: Nat.digitChar (b % 16) :: acc) [])

/-- One 16-bit IPv6 group in lowercase hex without leading zeros
(Go's `appendHex`). -/
def groupHex (g : Nat) : String :=
  String.mk (Nat.toDigits 16 g)

/-- Byte pairs to 16-bit groups: `(b1 <<< 8) ||| b2`. -/
def toGroups : List Nat → List Nat
  | b1 :: b2 :: rest => (b1 * 256 + b2) :: toGroups rest
  | _ => []

/-- End index of the run of zero groups starting at `i`. -/
def zeroRunEnd (gs : List Nat) (i : Nat) : Nat :=
  i + ((gs.drop i).takeWhile (fun g => g == 0)).length

/-- The leftmost longest run of zero groups, ignored when it has fewer than
two groups, exactly as in `net.IP.String`. -/
def bestZeroRun (gs : List Nat) : Option (Nat × Nat) :=
  let best := ((List.range gs.length).map (fun i => (i, zeroRunEnd gs i))).foldl
    (fun acc c =>
      match acc with
      | none => if c.1 < c.2 then some c else none
      | some b => if b.2 - b.1 < c.2 - c.1 then some c else some b)
    none
  match best with
  | some b => if b.2 - b.1 ≤ 1 then none else some b
  | none => none

/-- IPv6 rendering of 16 bytes with `::` in place of the chosen zero run. -/
def ipv6String (bs : List Nat) : String :=
  let gs := toGroups bs
  match bestZeroRun gs with
  | none => String.intercalate ":" (gs.map groupHex)
  | some (e0, e1) =>
    String.intercalate ":" ((gs.take e0).map groupHex) ++ "::" ++
      String.intercalate ":" ((gs.drop e1).map groupHex)

/-- Go `net.IP.String` (`ip` is the byte slice; bytes are below 256 wherever
the codec builds one). -/
def ipString (ip : List Nat) : String :=
  if ip.isEmpty then "<nil>"
  else
    match ipTo4 ip with
    | some (a, b, c, d) =>
      toString a ++ "." ++ toString b ++ "." ++ toString c ++ "." ++ toString d
    | none => if ip.length ≠ 16 then "?" ++ hexString ip else ipv6String ip

/-- `reverse` from connection_linux.go: in-place byte reversal, modelled as
list reversal. -/
def reverse (s : List Nat) : List Nat :=
  s.reverse

/-- The three error shapes `decodeAddress` produces, each carrying the text
the Go error message quotes. -/
inductive AddrError where
  | malformedField (src : String)
  | invalidPort (src : String)
  | decodeError (addr : String)
  deriving DecidableEq, Repr

/-- `decodeAddress` from connection_linux.go.  The call sites pass the
kind's family tag as `family`.  `.error e` models the Go `("", err)`
return. -/
def decodeAddress (family src : String) : Except AddrError String :=
  let t := goSplit ':' src
  if t.length ≠ 2 then .error (.malformedField src)
  else
    let addr := t.getD 0 ""
    match parseInt0x (t.getD 1 "") with
    | none => .error (.invalidPort src)
    | some port =>
      match hexDecodeString addr with
      | none => .error (.decodeError addr)
      | some decoded =>
        let ip : List Nat := if family = "inet" then reverse decoded else []
        .ok (ipString ip ++ ":" ++ toString port)

/-- `monitor.Connection` (the repository's root package).  The field name
`RemoteAddess` keeps the source's spelling. -/
structure Connection where
  Family : String
  «Type» : String
  LocalAddress : String
  RemoteAddess : String
  Status : String
  deriving DecidableEq, Repr

/-- `netConnectionKindType` from connection_linux.go. -/
structure netConnectionKindType where
  family : String
  sockType : String
  filename : String
  deriving DecidableEq, Repr

/-- `connectionKindTypes`: the registered socket kinds; the IPv6 entries are
commented out in the source. -/
def connectionKindTypes : List netConnectionKindType :=
  [{ family := "inet", sockType := "tcp", filename := "tcp" },
   { family := "inet", sockType := "udp", filename := "udp" }]

/-- `_TCPStatuses` from connection_linux.go, as an association list. -/
def _TCPStatuses : List (String × String) :=
  [("01", "ESTABLISHED"),
   ("02", "SYN_SENT"),
   ("03", "SYN_RECV"),
   ("04", "FIN_WAIT1"),
   ("05", "FIN_WAIT2"),
   ("06", "TIME_WAIT"),
   ("07", "CLOSE"),
   ("08", "CLOSE_WAIT"),
   ("09", "LAST_ACK"),
   ("0A", "LISTEN"),
   ("0B", "CLOSING")]

/-- Go map indexing `_TCPStatuses[code]`: the zero value `""` when absent. -/
def lookupStatus (code : String) : String :=
  (_TCPStatuses.lookup code).getD ""

/-- The status computation in `processINET`'s loop body: the table lookup
for TCP kinds, `""` otherwise, then `""` replaced by `"NONE"`. -/
def statusFor (kind : netConnectionKindType) (code : String) : String :=
  let status := if kind.sockType = "tcp" then lookupStatus code else ""
  if status = "" then "NONE" else status

/-- One iteration of `processINET`'s line loop as an optional connection:
`none` exactly when the loop body hits a `continue`. -/
def processLine (kind : netConnectionKindType) (line : String) : Option Connection :=
  let l := goFields line
  if l.length < 10 then none
  else
    match decodeAddress kind.family (l.getD 1 "") with
    | .error _ => none
    | .ok localAddress =>
      match decodeAddress kind.family (l.getD 2 "") with
      | .error _ => none
      | .ok remoteAddess =>
        some { Family := kind.family, «Type» := kind.sockType,
               LocalAddress := localAddress, RemoteAddess := remoteAddess,
               Status := statusFor kind (l.getD 3 "") }

/-- `processINET`'s loop over the post-header lines, with the source's
structure: field split, length guard, two decodes with `continue` on error,
status computation, append. -/
def processLines (kind : netConnectionKindType) : List String → List Connection
  | [] => []
  | line :: rest =>
    let l := goFields line
    if l.length < 10 then processLines kind rest
    else
      match decodeAddress kind.family (l.getD 1 "") with
      | .error _ => processLines kind rest
      | .ok localAddress =>
        match decodeAddress kind.family (l.getD 2 "") with
        | .error _ => processLines kind rest
        | .ok remoteAddess =>
          { Family := kind.family, «Type» := kind.sockType,
            LocalAddress := localAddress, RemoteAddess := remoteAddess,
            Status := statusFor kind (l.getD 3 "") } :: processLines kind rest

/-- The error `processINET` wraps around a failed `ioutil.ReadFile`. -/
inductive TableError where
  | readError (path : String)
  deriving DecidableEq, Repr

/-- The file system, abstracted: contents per readable path. -/
def FileSys : Type := String → Option String

/-- `processINET` from connection_linux.go: read the file (`.error` models
the Go `(nil, err)` return), split into lines, skip the first line, run the
loop. -/
def processINET (fs : FileSys) (filename : String) (kind : netConnectionKindType) :
    Except TableError (List Connection) :=
  match fs filename with
  | none => .error (.readError filename)
  | some contents => .ok (processLines kind ((goSplit '\n' contents).drop 1))

/-- The root defaulting at the top of `GetConnections`. -/
def effRoot (root : String) : String :=
  if root = "" then "/proc" else root

/-- `filepath.Join root (strconv.Itoa pid) k.filename` (the `Clean` step of
`filepath.Join` is omitted; the joined components already contain no extra
separators). -/
def connPath (root : String) (pid : Int) (k : netConnectionKindType) : String :=
  root ++ "/" ++ toString pid ++ "/" ++ k.filename

/-- The kind loop of `GetConnections`: successful kinds contribute their
connections in order, failed kinds contribute their error to the
`multierror` accumulator. -/
def multiCollect (f : netConnectionKindType → Except TableError (List Connection)) :
    List netConnectionKindType → List Connection × List TableError
  | [] => ([], [])
  | k :: ks =>
    let r := multiCollect f ks
    match f k with
    | .error e => (r.1, e :: r.2)
    | .ok cs => (cs ++ r.1, r.2)

/-- `GetConnections` from connection_linux.go.  The second component models
`multierror.Error.ErrorOrNil()`: `none` when no kind failed, otherwise the
accumulated per-kind errors. -/
def GetConnections (fs : FileSys) (root : String) (pid : Int) :
    List Connection × Option (List TableError) :=
  let r := multiCollect (fun k => processINET fs (connPath (effRoot root) pid k) k)
    connectionKindTypes
  (r.1, if r.2.isEmpty then none else some r.2)

/-- The deduplication key built in `Monitor.Collect`:
`strings.Join([family, type, local, remote], "|")` — status excluded. -/
def connKey (c : Connection) : String :=
  String.intercalate "|" [c.Family, c.«Type», c.LocalAddress, c.RemoteAddess]

/-- Go map assignment `connections[key] = i` on an association-list model of
the map: overwrite in place when the key exists, append otherwise. -/
def connectionsInsert (m : List (String × Connection)) (key : String) (c : Connection) :
    List (String × Connection) :=
  if m.any (fun kv => kv.1 = key) then
    m.map (fun kv => if kv.1 = key then (key, c) else kv)
  else m ++ [(key, c)]

/-- The connection-aggregation loop of `Monitor.Collect`: the per-pid
results (in pid iteration order) are inserted one by one into the
`connections` map; the last write wins on key collision. -/
def collectConnections (results : List (List Connection)) : List (String × Connection) :=
  results.foldl (fun m cs => cs.foldl (fun m i => connectionsInsert m (connKey i) i) m) []

/-- The value extraction at the end of `Monitor.Collect`'s pod loop
(`for _, c := range connections`), in the association list's order — one
admissible order of Go's unordered map range. -/
def podConnections (results : List (List Connection)) : List Connection :=
  (collectConnections results).map (fun kv => kv.2)

/-- `types.ContainerState`: only the `Pid` field is consulted. -/
structure ContainerState where
  Pid : Int
  deriving DecidableEq, Repr

/-- The container-inspect result: `State` may be absent. -/
structure ContainerJSON where
  State : Option ContainerState
  deriving DecidableEq, Repr

/-- Errors of the moby `GetPids`. -/
inductive PidError where
  | notMoby (id : String)
  | inspectFailed
  deriving DecidableEq, Repr

/-- Go `strings.HasPrefix` over character lists (string, then prospective
leading part). -/
def hasLead : List Char → List Char → Bool
  | _, [] => true
  | [], _ :: _ => false
  | c :: cs, d :: ds => c == d && hasLead cs ds

/-- `Client.GetPids` from pkg/moby/moby.go, with `ContainerInspect`
abstracted as `inspect`.  When `info.State` is `nil` the Go code returns
`(nil, errors.Wrap(err, ...))` with `err == nil`, and `errors.Wrap(nil, ...)`
is `nil` — so that branch is a successful empty return.  The final branch
keeps the source's comparison: `pid >= 0` returns no pids, a negative pid is
returned in the list. -/
def GetPids (inspect : String → Except PidError ContainerJSON) (id : String) :
    Except PidError (List Int) :=
  if hasLead id.toList "docker://".toList then
    match inspect (String.mk (id.toList.drop "docker://".toList.length)) with
    | .error e => .error e
    | .ok info =>
      match info.State with
      | none => .ok []
      | some st => if st.Pid ≥ 0 then .ok [] else .ok [st.Pid]
  else .error (.notMoby id)

/-! ### Lemmas about the string helpers -/

theorem splitOnP_ne_nil (p : Char → Bool) : ∀ l : List Char, splitOnP p l ≠ []
  | [] => by simp [splitOnP]
  | c :: rest => by
    have ih := splitOnP_ne_nil p rest
    simp only [splitOnP]
    split
    · simp
    · cases h : splitOnP p rest with
      | nil => exact absurd h ih
      | cons hd tl => simp [h]

theorem length_splitOnP (p : Char → Bool) :
    ∀ l : List Char, (splitOnP p l).length = l.countP p + 1
  | [] => by simp [splitOnP]
  | c :: rest => by
    have ih := length_splitOnP p rest
    simp only [splitOnP, List.countP_cons]
    by_cases hc : p c
    · simp [hc, ih]
    · simp only [hc, if_false, Bool.false_eq_true]
      cases h : splitOnP p rest with
      | nil => exact absurd h (splitOnP_ne_nil p rest)
      | cons hd tl =>
        rw [h] at ih
        simp only [List.length_cons] at ih ⊢
        simp [hc]
        omega

theorem splitOnP_eq_single (p : Char → Bool) :
    ∀ l : List Char, (∀ c ∈ l, p c = false) → splitOnP p l = [l]
  | [], _ => rfl
  | c :: rest, h => by
    have ih := splitOnP_eq_single p rest (fun d hd => h d (List.mem_cons_of_mem c hd))
    simp [splitOnP, h c (List.mem_cons_self c rest), ih]

theorem splitOnP_append (p : Char → Bool) (sep : Char) (hsep : p sep = true) :
    ∀ l1 l2 : List Char, (∀ c ∈ l1, p c = false) →
      splitOnP p (l1 ++ sep :: l2) = l1 :: splitOnP p l2
  | [], l2, _ => by simp [splitOnP, hsep]
  | c :: l1, l2, h => by
    have ih := splitOnP_append p sep hsep l1 l2 (fun d hd => h d (by simp [hd]))
    simp [splitOnP, h c (by simp), ih]

theorem toList_append (s t : String) : (s ++ t).toList = s.toList ++ t.toList := by
  cases s
  cases t
  rfl

theorem mk_toList (s : String) : String.mk s.toList = s := by
  cases s
  rfl

theorem length_goSplit (sep : Char) (s : String) :
    (goSplit sep s).length = s.toList.count sep + 1 := by
  unfold goSplit
  rw [List.length_map, length_splitOnP]
  rfl

theorem goSplit_pair (a p : String)
    (ha : ∀ c ∈ a.toList, (c == ':') = false)
    (hp : ∀ c ∈ p.toList, (c == ':') = false) :
    goSplit ':' (a ++ ":" ++ p) = [a, p] := by
  unfold goSplit
  rw [toList_append, toList_append]
  have hcolon : (":" : String).toList = [':'] := rfl
  rw [hcolon, List.append_assoc, List.singleton_append]
  rw [splitOnP_append _ ':' (by simp) a.toList p.toList ha]
  rw [splitOnP_eq_single _ p.toList hp]
  simp [mk_toList]

theorem length_two_pair {α : Type} : ∀ l : List α, l.length = 2 → ∃ a b, l = [a, b] := by
  intro l h
  rcases l with _ | ⟨a, _ | ⟨b, _ | ⟨c, t⟩⟩⟩ <;> simp_all

/-! ### Lemmas about the hex decoders -/

theorem hexDecodeString_digits (s : String) (bs : List Nat)
    (h : hexDecodeString s = some bs) :
    ∀ c ∈ s.toList, (hexDigitVal c).isSome = true := by
  simp only [hexDecodeString] at h
  split at h
  · next hc => exact fun c hmem => List.all_eq_true.mp hc.2 c hmem
  · exact absurd h (by simp)

theorem validHexUnd_chars :
    ∀ (l : List Char) (b : Bool), validHexUnd b l = true →
      ∀ c ∈ l, ((hexDigitVal c).isSome = true ∨ c = '_') := by
  intro l
  induction l with
  | nil => intro b _ c hc; simp at hc
  | cons c0 rest ih =>
    intro b h c hc
    simp only [validHexUnd] at h
    by_cases h1 : (hexDigitVal c0).isSome
    · rw [if_pos h1] at h
      rcases List.mem_cons.mp hc with rfl | hm
      · exact Or.inl h1
      · exact ih true h c hm
    · rw [if_neg h1] at h
      by_cases h2 : c0 == '_'
      · rw [if_pos h2] at h
        have h' := (Bool.and_eq_true _ _).mp h
        rcases List.mem_cons.mp hc with rfl | hm
        · exact Or.inr (by simpa using h2)
        · exact ih false h'.2 c hm
      · rw [if_neg h2] at h
        cases h

theorem parseInt0x_chars (s : String) (n : Nat) (h : parseInt0x s = some n) :
    ∀ c ∈ s.toList, ((hexDigitVal c).isSome = true ∨ c = '_') := by
  simp only [parseInt0x] at h
  split at h
  · cases h
  · split at h
    · next hv => exact validHexUnd_chars s.toList true hv
    · cases h

theorem no_colon_of_digits (l : List Char)
    (h : ∀ c ∈ l, (hexDigitVal c).isSome = true) :
    ∀ c ∈ l, (c == ':') = false := by
  intro c hc
  have hd := h c hc
  by_cases hcolon : c = ':'
  · rw [hcolon] at hd
    exact absurd hd (by decide)
  · simp [hcolon]

theorem no_colon_of_und (l : List Char)
    (h : ∀ c ∈ l, ((hexDigitVal c).isSome = true ∨ c = '_')) :
    ∀ c ∈ l, (c == ':') = false := by
  intro c hc
  rcases h c hc with hd | hu
  · by_cases hcolon : c = ':'
    · rw [hcolon] at hd
      exact absurd hd (by decide)
    · simp [hcolon]
  · rw [hu]
    decide

/-- Unfolding of `decodeAddress` once the colon split is known. -/
theorem decodeAddress_eq_of_split (family src a p : String)
    (hsplit : goSplit ':' src = [a, p]) :
    decodeAddress family src =
      match parseInt0x p with
      | none => .error (.invalidPort src)
      | some port =>
        match hexDecodeString a with
        | none => .error (.decodeError a)
        | some decoded =>
          .ok (ipString (if family = "inet" then reverse decoded else []) ++ ":" ++ toString port) := by
  simp [decodeAddress, hsplit]

/-! ### Lemmas about the parser and the aggregators -/

theorem statusFor_ne_empty (kind : netConnectionKindType) (code : String) :
    statusFor kind code ≠ "" := by
  simp only [statusFor]
  by_cases h : (if kind.sockType = "tcp" then lookupStatus code else "") = ""
  · rw [if_pos h]
    decide
  · rw [if_neg h]
    exact h

theorem statusFor_non_tcp (kind : netConnectionKindType) (code : String)
    (h : kind.sockType ≠ "tcp") : statusFor kind code = "NONE" := by
  simp [statusFor, h]

theorem lookupStatus_not_mem (code : String)
    (h : code ∉ ["01", "02", "03", "04", "05", "06", "07", "08", "09", "0A", "0B"]) :
    lookupStatus code = "" := by
  simp only [List.mem_cons, not_or, List.not_mem_nil] at h
  obtain ⟨h1, h2, h3, h4, h5, h6, h7, h8, h9, h10, h11, -⟩ := h
  simp [lookupStatus, _TCPStatuses, List.lookup, beq_eq_false_iff_ne.mpr h1,
    beq_eq_false_iff_ne.mpr h2, beq_eq_false_iff_ne.mpr h3, beq_eq_false_iff_ne.mpr h4,
    beq_eq_false_iff_ne.mpr h5, beq_eq_false_iff_ne.mpr h6, beq_eq_false_iff_ne.mpr h7,
    beq_eq_false_iff_ne.mpr h8, beq_eq_false_iff_ne.mpr h9, beq_eq_false_iff_ne.mpr h10,
    beq_eq_false_iff_ne.mpr h11]

theorem processLine_status (kind : netConnectionKindType) (line : String) (c : Connection)
    (h : processLine kind line = some c) :
    c.Status = statusFor kind ((goFields line).getD 3 "") := by
  simp only [processLine] at h
  split at h
  · cases h
  · split at h
    · cases h
    · split at h
      · cases h
      · cases h
        rfl

theorem processLines_cons (kind : netConnectionKindType) (line : String) (rest : List String) :
    processLines kind (line :: rest) =
      match processLine kind line with
      | none => processLines kind rest
      | some c => c :: processLines kind rest := by
  simp only [processLines, processLine]
  by_cases hl : (goFields line).length < 10
  · simp only [if_pos hl]
  · simp only [if_neg hl]
    cases h1 : decodeAddress kind.family ((goFields line).getD 1 "") with
    | error e => rfl
    | ok la =>
      cases h2 : decodeAddress kind.family ((goFields line).getD 2 "") with
      | error e => rfl
      | ok ra => rfl

theorem processLines_eq (kind : netConnectionKindType) :
    ∀ lines : List String, processLines kind lines = lines.filterMap (processLine kind)
  | [] => rfl
  | line :: rest => by
    rw [processLines_cons, List.filterMap_cons]
    cases h : processLine kind line <;> simp [processLines_eq kind rest]

/-- The error component of an `Except` result, `none` on success. -/
def exceptError : Except TableError (List Connection) → Option TableError
  | .error e => some e
  | .ok _ => none

theorem multiCollect_fst (f : netConnectionKindType → Except TableError (List Connection)) :
    ∀ ks : List netConnectionKindType,
      (multiCollect f ks).1 = (ks.map (fun k => ((f k).toOption.getD []))).flatten
  | [] => rfl
  | k :: ks => by
    have ih := multiCollect_fst f ks
    simp only [multiCollect, List.map_cons, List.flatten]
    cases hk : f k with
    | error e => simp [hk, ih, Except.toOption]
    | ok cs => simp [hk, ih, Except.toOption]

theorem multiCollect_snd (f : netConnectionKindType → Except TableError (List Connection)) :
    ∀ ks : List netConnectionKindType,
      (multiCollect f ks).2 = ks.filterMap (fun k => exceptError (f k))
  | [] => rfl
  | k :: ks => by
    have ih := multiCollect_snd f ks
    simp only [multiCollect, List.filterMap_cons]
    cases hk : f k with
    | error e => simp [hk, ih, exceptError]
    | ok cs => simp [hk, ih, exceptError]

/-! ### Claim theorems -/

/-- C1: for every valid IPv4 input field `HEXADDR:HEXPORT` (address hex-decoding
to four bytes, port parsing in base 16), `decodeAddress` with family tag
`"inet"` reverses the byte order of the decoded address and returns the
dotted-quad joined by `:` with the port printed in decimal. -/
theorem decodeAddress_inet_ipv4 (a p : String) (b0 b1 b2 b3 n : Nat)
    (ha : hexDecodeString a = some [b0, b1, b2, b3]) (hp : parseInt0x p = some n) :
    decodeAddress "inet" (a ++ ":" ++ p) =
      .ok (toString b3 ++ "." ++ toString b2 ++ "." ++ toString b1 ++ "." ++ toString b0 ++
        ":" ++ toString n) := by
  have hsplit := goSplit_pair a p
    (no_colon_of_digits _ (hexDecodeString_digits a _ ha))
    (no_colon_of_und _ (parseInt0x_chars p n hp))
  rw [decodeAddress_eq_of_split "inet" _ a p hsplit, hp, ha]
  rfl

/-- Witness for C1: the raw field `0100007F:1538` decodes to `127.0.0.1:5432`. -/
theorem decodeAddress_inet_ipv4_witness :
    hexDecodeString "0100007F" = some [1, 0, 0, 127] ∧ parseInt0x "1538" = some 5432 ∧
    decodeAddress "inet" "0100007F:1538" = .ok "127.0.0.1:5432" := by
  refine ⟨by decide, by decide, ?_⟩
  have h := decodeAddress_inet_ipv4 "0100007F" "1538" 1 0 0 127 5432 (by decide) (by decide)
  rw [show ("0100007F:1538" : String) = "0100007F" ++ ":" ++ "1538" by decide, h]
  decide

/-- C2: `decodeAddress` fails with the malformed-field error (Go:
"does not contain port") exactly when the input does not contain exactly
one `:`; with exactly one `:` this check passes, whatever happens later. -/
theorem decodeAddress_malformed_iff (family src : String) :
    decodeAddress family src = .error (.malformedField src) ↔ src.toList.count ':' ≠ 1 := by
  constructor
  · intro h
    by_contra hcount
    have hlen : (goSplit ':' src).length = 2 := by
      rw [length_goSplit, hcount]
    obtain ⟨a, p, hap⟩ := length_two_pair _ hlen
    rw [decodeAddress_eq_of_split family src a p hap] at h
    cases hpp : parseInt0x p with
    | none =>
      rw [hpp] at h
      simp at h
    | some port =>
      rw [hpp] at h
      cases hd : hexDecodeString a with
      | none =>
        rw [hd] at h
        simp at h
      | some dec =>
        rw [hd] at h
        simp at h
  · intro hcount
    have hlen : (goSplit ':' src).length ≠ 2 := by
      rw [length_goSplit]
      omega
    simp [decodeAddress, hlen]

/-- C3, counterexample: a 1-byte (hence invalid-length) `inet` address does
not produce an error; the Go code hands the wrong-sized byte slice to
`net.IP.String`, which renders it as `?` followed by its hex bytes. -/
theorem decodeAddress_length_unchecked :
    decodeAddress "inet" "01:0050" = .ok "?01:80" := by decide

/-- C3, amended: with one colon and a parseable port, `decodeAddress` fails
with the decode error exactly on hex-decoding failure of the address
substring; when the address hex-decodes, any byte count — matching a valid
address length or not — yields success. -/
theorem decodeAddress_decode_error (family src a p : String) (n : Nat)
    (hsplit : goSplit ':' src = [a, p]) (hp : parseInt0x p = some n) :
    (hexDecodeString a = none → decodeAddress family src = .error (.decodeError a))
    ∧ (∀ bs : List Nat, hexDecodeString a = some bs →
        ∃ out : String, decodeAddress family src = .ok out) := by
  constructor
  · intro ha
    rw [decodeAddress_eq_of_split family src a p hsplit, hp, ha]
  · intro bs ha
    rw [decodeAddress_eq_of_split family src a p hsplit, hp, ha]
    exact ⟨_, rfl⟩

/-- Witness for C3 (amended): hex decoding of `zz` fails, so
`zz:1` is a decode error. -/
theorem decodeAddress_decode_error_witness :
    decodeAddress "inet" "zz:1" = .error (.decodeError "zz") :=
  (decodeAddress_decode_error "inet" "zz:1" "zz" "1" 1 (by decide) (by decide)).1 (by decide)

/-- C10: with exactly one colon, hex-decodable address and parseable port
but a family tag other than `inet`, `decodeAddress` succeeds and formats the
nil address as `<nil>` joined with the decimal port. -/
theorem decodeAddress_non_inet (family a p : String) (bs : List Nat) (n : Nat)
    (hf : family ≠ "inet") (ha : hexDecodeString a = some bs) (hp : parseInt0x p = some n) :
    decodeAddress family (a ++ ":" ++ p) = .ok ("<nil>" ++ ":" ++ toString n) := by
  have hsplit := goSplit_pair a p
    (no_colon_of_digits _ (hexDecodeString_digits a _ ha))
    (no_colon_of_und _ (parseInt0x_chars p n hp))
  rw [decodeAddress_eq_of_split family _ a p hsplit, hp, ha]
  simp [hf]
  rfl

/-- Witness for C10: an `inet6` field decodes to `<nil>:5432`. -/
theorem decodeAddress_non_inet_witness :
    decodeAddress "inet6" "0100007F:1538" = .ok "<nil>:5432" := by
  have h := decodeAddress_non_inet "inet6" "0100007F" "1538" [1, 0, 0, 127] 5432
    (by decide) (by decide) (by decide)
  rw [show ("0100007F:1538" : String) = "0100007F" ++ ":" ++ "1538" by decide, h]
  decide

/-- C4: every connection the parser produces has a non-empty status; for
non-TCP kinds the status is always `NONE`; for TCP kinds each of the eleven
codes `01`..`0B` maps to its named state, and any other code maps to
`NONE`. -/
theorem parser_status_invariant :
    (∀ (fs : FileSys) (path : String) (kind : netConnectionKindType)
        (conns : List Connection) (c : Connection),
        processINET fs path kind = .ok conns → c ∈ conns →
        c.Status ≠ "" ∧ (kind.sockType ≠ "tcp" → c.Status = "NONE"))
    ∧ (∀ kind : netConnectionKindType, kind.sockType = "tcp" →
        statusFor kind "01" = "ESTABLISHED" ∧ statusFor kind "02" = "SYN_SENT" ∧
        statusFor kind "03" = "SYN_RECV" ∧ statusFor kind "04" = "FIN_WAIT1" ∧
        statusFor kind "05" = "FIN_WAIT2" ∧ statusFor kind "06" = "TIME_WAIT" ∧
        statusFor kind "07" = "CLOSE" ∧ statusFor kind "08" = "CLOSE_WAIT" ∧
        statusFor kind "09" = "LAST_ACK" ∧ statusFor kind "0A" = "LISTEN" ∧
        statusFor kind "0B" = "CLOSING")
    ∧ (∀ (kind : netConnectionKindType) (code : String), kind.sockType = "tcp" →
        code ∉ ["01", "02", "03", "04", "05", "06", "07", "08", "09", "0A", "0B"] →
        statusFor kind code = "NONE") := by
  refine ⟨?_, ?_, ?_⟩
  · intro fs path kind conns c hok hmem
    have hstat : ∃ code, c.Status = statusFor kind code := by
      simp only [processINET] at hok
      cases hfs : fs path with
      | none =>
        rw [hfs] at hok
        cases hok
      | some contents =>
        rw [hfs] at hok
        cases hok
        rw [processLines_eq] at hmem
        obtain ⟨line, -, hline⟩ := List.mem_filterMap.mp hmem
        exact ⟨_, processLine_status kind line c hline⟩
    obtain ⟨code, hcode⟩ := hstat
    rw [hcode]
    exact ⟨statusFor_ne_empty kind code, statusFor_non_tcp kind code⟩
  · intro kind hk
    refine ⟨?_, ?_, ?_, ?_, ?_, ?_, ?_, ?_, ?_, ?_, ?_⟩ <;>
      · simp only [statusFor, hk]
        decide
  · intro kind code hk hmem
    simp [statusFor, hk, lookupStatus_not_mem code hmem]

/-- Witness for C4: a parsed TCP connection carries the non-empty status
`LISTEN`, and the unmapped code `FF` resolves to `NONE`. -/
theorem parser_status_invariant_witness :
    ({ Family := "inet", «Type» := "tcp", LocalAddress := "127.0.0.1:8080",
       RemoteAddess := "0.0.0.0:0", Status := "LISTEN" } : Connection).Status ≠ ""
    ∧ statusFor { family := "inet", sockType := "tcp", filename := "tcp" } "FF" = "NONE" := by
  have h := parser_status_invariant
  refine ⟨?_, ?_⟩
  · exact (h.1
      (fun p => if p = "/proc/1/tcp" then some "hdr\n 0: 0100007F:1F90 00000000:0000 0A a b c d e f" else none)
      "/proc/1/tcp" { family := "inet", sockType := "tcp", filename := "tcp" }
      [{ Family := "inet", «Type» := "tcp", LocalAddress := "127.0.0.1:8080",
         RemoteAddess := "0.0.0.0:0", Status := "LISTEN" }] _ (by decide) (by decide)).1
  · exact h.2.2 { family := "inet", sockType := "tcp", filename := "tcp" } "FF" rfl (by decide)

/-- C5: with a readable file the parser never errors: it drops the first
(header) line and keeps exactly the remaining lines that decode; any line
with fewer than 10 whitespace-delimited fields decodes to nothing, so it is
dropped. -/
theorem parser_skips_short_rows :
    (∀ (fs : FileSys) (path : String) (kind : netConnectionKindType) (contents : String),
        fs path = some contents →
        processINET fs path kind =
          .ok (((goSplit '\n' contents).drop 1).filterMap (processLine kind)))
    ∧ (∀ (kind : netConnectionKindType) (line : String),
        (goFields line).length < 10 → processLine kind line = none) := by
  constructor
  · intro fs path kind contents h
    simp only [processINET, h]
    rw [processLines_eq]
  · intro kind line h
    simp [processLine, h]

/-- Witness for C5: a table whose only data row has 3 fields parses to the
empty list without error. -/
theorem parser_skips_short_rows_witness :
    processINET (fun _ => some "hdr\n1 2 3") "x"
      { family := "inet", sockType := "tcp", filename := "tcp" } = .ok []
    ∧ processLine { family := "inet", sockType := "tcp", filename := "tcp" } "1 2 3" = none := by
  have h := parser_skips_short_rows
  refine ⟨?_, h.2 { family := "inet", sockType := "tcp", filename := "tcp" } "1 2 3" (by decide)⟩
  rw [h.1 (fun _ => some "hdr\n1 2 3") "x"
    { family := "inet", sockType := "tcp", filename := "tcp" } "hdr\n1 2 3" rfl]
  decide

/-- C6: an unreadable path yields the read error wrapping the path (and no
connections), while a readable file consisting of a single (header) line
yields the empty list and no error. -/
theorem parser_read_and_empty :
    (∀ (fs : FileSys) (path : String) (kind : netConnectionKindType),
        fs path = none → processINET fs path kind = .error (.readError path))
    ∧ (∀ (fs : FileSys) (path : String) (kind : netConnectionKindType) (contents : String),
        fs path = some contents → contents.toList.count '\n' = 0 →
        processINET fs path kind = .ok []) := by
  constructor
  · intro fs path kind h
    simp [processINET, h]
  · intro fs path kind contents h hnl
    simp only [processINET, h]
    have hsingle : goSplit '\n' contents = [contents] := by
      unfold goSplit
      rw [splitOnP_eq_single]
      · simp [mk_toList]
      · intro c hc
        have hnot := List.count_eq_zero.mp hnl
        by_cases hceq : c = '\n'
        · rw [hceq] at hc
          exact absurd hc hnot
        · simp [hceq]
    rw [hsingle]
    rfl

/-- Witness for C6: a missing file errors with its path; a header-only file
parses to the empty list. -/
theorem parser_read_and_empty_witness :
    processINET (fun _ => none) "p"
      { family := "inet", sockType := "tcp", filename := "tcp" } = .error (.readError "p")
    ∧ processINET (fun _ => some "hdr") "q"
      { family := "inet", sockType := "tcp", filename := "tcp" } = .ok [] := by
  have h := parser_read_and_empty
  exact ⟨h.1 (fun _ => none) "p" { family := "inet", sockType := "tcp", filename := "tcp" } rfl,
    h.2 (fun _ => some "hdr") "q" { family := "inet", sockType := "tcp", filename := "tcp" }
      "hdr" rfl (by decide)⟩

/-- C7: `GetConnections` visits every registered kind: its connection list
is the concatenation of the successful kinds' results in order, its error is
`none` exactly when no kind failed, and otherwise collects every per-kind
failure. -/
theorem getConnections_fan_out (fs : FileSys) (root : String) (pid : Int) :
    (GetConnections fs root pid).1 =
      (connectionKindTypes.map
        (fun k => ((processINET fs (connPath (effRoot root) pid k) k).toOption.getD []))).flatten
    ∧ ((GetConnections fs root pid).2 = none ↔
        ∀ k ∈ connectionKindTypes,
          exceptError (processINET fs (connPath (effRoot root) pid k) k) = none)
    ∧ (∀ es : List TableError, (GetConnections fs root pid).2 = some es →
        es = connectionKindTypes.filterMap
          (fun k => exceptError (processINET fs (connPath (effRoot root) pid k) k))) := by
  have hsnd := multiCollect_snd
    (fun k => processINET fs (connPath (effRoot root) pid k) k) connectionKindTypes
  refine ⟨?_, ?_, ?_⟩
  · exact multiCollect_fst _ _
  · show (if (multiCollect _ connectionKindTypes).2.isEmpty then none else some _) = none ↔ _
    by_cases he : (multiCollect
        (fun k => processINET fs (connPath (effRoot root) pid k) k) connectionKindTypes).2.isEmpty
    · rw [if_pos he]
      simp only [List.isEmpty_iff] at he
      rw [he] at hsnd
      simp only [true_iff, eq_self_iff_true]
      exact List.filterMap_eq_nil_iff.mp hsnd.symm
    · rw [if_neg he]
      simp only [List.isEmpty_iff] at he
      constructor
      · intro hcontra
        cases hcontra
      · intro hall
        exact absurd (hsnd.trans (List.filterMap_eq_nil_iff.mpr hall)) he
  · intro es hes
    show es = _
    by_cases he : (multiCollect
        (fun k => processINET fs (connPath (effRoot root) pid k) k) connectionKindTypes).2.isEmpty
    · rw [show (GetConnections fs root pid).2 =
          (if (multiCollect (fun k => processINET fs (connPath (effRoot root) pid k) k)
            connectionKindTypes).2.isEmpty then none else some _) from rfl, if_pos he] at hes
      cases hes
    · rw [show (GetConnections fs root pid).2 =
          (if (multiCollect (fun k => processINET fs (connPath (effRoot root) pid k) k)
            connectionKindTypes).2.isEmpty then none
           else some (multiCollect (fun k => processINET fs (connPath (effRoot root) pid k) k)
            connectionKindTypes).2) from rfl, if_neg he] at hes
      cases hes
      exact hsnd

/-- Witness for C7: with a readable tcp table and a missing udp table, the
result keeps the (empty) tcp connections and reports exactly the udp read
failure. -/
theorem getConnections_fan_out_witness :
    (GetConnections (fun p => if p = "/proc/1/tcp" then some "hdr" else none) "" 1).2 =
      some [.readError "/proc/1/udp"]
    ∧ [TableError.readError "/proc/1/udp"] =
      connectionKindTypes.filterMap (fun k =>
        exceptError (processINET (fun p => if p = "/proc/1/tcp" then some "hdr" else none)
          (connPath (effRoot "") 1 k) k)) := by
  refine ⟨by decide, ?_⟩
  exact (getConnections_fan_out (fun p => if p = "/proc/1/tcp" then some "hdr" else none) "" 1).2.2
    [.readError "/proc/1/udp"] (by decide)

/-- C8: when two connections collected from two different pids agree on the
deduplication key (family, type, local, remote) but differ in status, the
final map holds exactly one record under that key, carrying the
later-processed record's status. -/
theorem collect_last_write_wins (c1 c2 : Connection)
    (hkey : connKey c1 = connKey c2) (_hstatus : c1.Status ≠ c2.Status) :
    collectConnections [[c1], [c2]] = [(connKey c2, c2)]
    ∧ podConnections [[c1], [c2]] = [c2] := by
  have hstep : collectConnections [[c1], [c2]] =
      connectionsInsert (connectionsInsert [] (connKey c1) c1) (connKey c2) c2 := rfl
  have hfirst : connectionsInsert [] (connKey c1) c1 = [(connKey c1, c1)] := rfl
  have hmain : collectConnections [[c1], [c2]] = [(connKey c2, c2)] := by
    rw [hstep, hfirst, hkey]
    simp [connectionsInsert]
  exact ⟨hmain, by simp [podConnections, hmain]⟩

/-- Witness for C8: two records sharing the key but with statuses
`ESTABLISHED` and `TIME_WAIT` collapse to the single later record. -/
theorem collect_last_write_wins_witness :
    podConnections
      [[{ Family := "inet", «Type» := "tcp", LocalAddress := "1.2.3.4:1",
          RemoteAddess := "5.6.7.8:2", Status := "ESTABLISHED" }],
       [{ Family := "inet", «Type» := "tcp", LocalAddress := "1.2.3.4:1",
          RemoteAddess := "5.6.7.8:2", Status := "TIME_WAIT" }]] =
      [{ Family := "inet", «Type» := "tcp", LocalAddress := "1.2.3.4:1",
         RemoteAddess := "5.6.7.8:2", Status := "TIME_WAIT" }] :=
  (collect_last_write_wins
    { Family := "inet", «Type» := "tcp", LocalAddress := "1.2.3.4:1",
      RemoteAddess := "5.6.7.8:2", Status := "ESTABLISHED" }
    { Family := "inet", «Type» := "tcp", LocalAddress := "1.2.3.4:1",
      RemoteAddess := "5.6.7.8:2", Status := "TIME_WAIT" }
    (by decide) (by decide)).2

/-- C9: evaluation of the moby `GetPids` at concrete inspection results.
The source's comparison is `pid >= 0 → return nil, nil`, so a successfully
inspected container with non-negative pid 1234 yields no pids, while a
negative placeholder pid -1 is returned in the pid list — the opposite of
the claim (and of the function's own documentation). -/
theorem getPids_pid_sign_eval :
    GetPids (fun _ => .ok { State := some { Pid := 1234 } }) "docker://abc" = .ok []
    ∧ GetPids (fun _ => .ok { State := some { Pid := -1 } }) "docker://abc" = .ok [-1] := by
  constructor <;> decide

end ConnMonitor

